import Mathlib

/-!
Verification of the index-advisor core of
`src/conversion-tools/create-performance-indexes.py` (class `IndexAnalyzer`).

The Python code is shallowly embedded: floats are modelled as rationals
(all arithmetic in the advisor is products and threshold comparisons, exact
in ℚ), Python dicts as insertion-ordered association lists with unique keys,
Python sets as insertion-ordered duplicate-free lists, and SQL strings as
Lean `String`s built by the same concatenations the source performs.
-/

set_option maxRecDepth 2000

namespace CedsIndexAdvisor

/-! ## Character-list string primitives

Python's `needle in haystack` substring test, `str.endswith`, and
`str.lower()` are modelled over `List Char`. -/

/-- `startsWithL n h` iff `h` begins with `n` (needle first). -/
def startsWithL : List Char → List Char → Bool
  | [], _ => true
  | _ :: _, [] => false
  | a :: as, b :: bs => a == b && startsWithL as bs

/-- Python's substring containment `n in h` over character lists. -/
def containsL (n : List Char) : List Char → Bool
  | [] => n.isEmpty
  | c :: t => startsWithL n (c :: t) || containsL n t

/-- Substring containment on strings: Python `n in h`. -/
def containsStr (n h : String) : Bool := containsL n.toList h.toList

/-- Python `h.endswith n`. -/
def endsWithStr (h n : String) : Bool := startsWithL n.toList.reverse h.toList.reverse

/-- Python `s.lower()` on the ASCII SQL text handled here (character-wise
`Char.toLower`). -/
def lowerStr (s : String) : String := String.mk (s.toList.map Char.toLower)

/-- Python `s.split('.', 1)`: the part before the first dot and the part
after it.  In the advisor every split table name contains a dot; on a
dot-free input the source would raise on unpacking, here the second
component is empty (that input is unreachable in the modelled flows). -/
def split1Dot (s : String) : String × String :=
  (String.mk (s.toList.takeWhile (fun ch => ch ≠ '.')),
   String.mk ((s.toList.dropWhile (fun ch => ch ≠ '.')).drop 1))

/-- Python `'.' in s`. -/
def hasDot (s : String) : Bool := s.toList.contains '.'

/-! ## Association-list dictionaries -/

/-- Dict lookup: first entry with the given key (keys are unique in every
dict the source builds). -/
def lookup {β : Type} (m : List (String × β)) (k : String) : Option β :=
  match m.find? (fun p => decide (p.1 = k)) with
  | some p => some p.2
  | none => none

/-! ## Selectivity (`_calculate_selectivity`, lines 280-290) -/

/-- `_calculate_selectivity(n_distinct)`: `None` maps to 0.5; a negative
value encodes a fraction of rows, mapped to its absolute value; a
non-negative value is a distinct count, mapped to `min(v/1000000, 1.0)`. -/
def calculate_selectivity : Option ℚ → ℚ
  | none => 1 / 2
  | some v => if v < 0 then |v| else min (v / 1000000) 1

/-! ## Data model -/

/-- Column role, the `column_type` computed by `get_table_metadata`. -/
inductive ColRole
  | PRIMARY_KEY
  | FOREIGN_KEY
  | REGULAR
  deriving DecidableEq

/-- Per-column record stored by `get_table_metadata` (lines 265-271):
role, `pg_stats.n_distinct`, and the derived selectivity. -/
structure ColumnInfo where
  column_type : ColRole
  n_distinct : Option ℚ
  selectivity : ℚ
  deriving DecidableEq

/-- Builder used at lines 265-271: the stored selectivity is always
`_calculate_selectivity n_distinct`. -/
def mkColumnInfo (role : ColRole) (nd : Option ℚ) : ColumnInfo :=
  { column_type := role, n_distinct := nd, selectivity := calculate_selectivity nd }

/-- Per-table metadata dict built by `get_table_metadata` (lines 261-278). -/
structure TableMeta where
  columns : List (String × ColumnInfo)
  primary_keys : List String
  foreign_keys : List String
  deriving DecidableEq

/-- `table_metadata`: qualified table name (`schema.table`) to its metadata. -/
abbrev Metadata := List (String × TableMeta)

/-- One row of `get_existing_indexes` output (lines 316-319). -/
structure ExIndex where
  name : String
  definition : String
  deriving DecidableEq

/-- `existing_indexes`: qualified table name to its index list. -/
abbrev ExistingIdx := List (String × List ExIndex)

/-- Suggestion type tag (`'single_column' | 'foreign_key' | 'composite'`). -/
inductive SugType
  | single_column
  | foreign_key
  | composite
  deriving DecidableEq

/-- Estimated benefit tag. -/
inductive Benefit
  | LOW
  | MEDIUM
  | HIGH
  deriving DecidableEq

/-- An index suggestion dict as produced by the three generators.  The
`reasoning` string (pure presentation, float formatting) is not modelled. -/
structure Suggestion where
  type : SugType
  table : String
  columns : List String
  index_name : String
  sql : String
  priority_score : ℚ
  estimated_benefit : Benefit
  deriving DecidableEq

/-! ## `_column_already_indexed` (lines 388-397) -/

/-- True iff some existing index of `table` has a definition whose
lowercased text contains `column` as a substring. -/
def column_already_indexed (table column : String) (existing : ExistingIdx) : Bool :=
  match lookup existing table with
  | none => false
  | some idxs => idxs.any (fun i => containsStr column (lowerStr i.definition))

/-! ## `_create_index_suggestion` (lines 399-429) -/

/-- Single-column suggestion: score = weight, doubled for a foreign key,
×1.5 when selectivity > 0.1, ×0.5 when selectivity < 0.01; benefit HIGH
above 1,000,000, MEDIUM above 100,000, else LOW (strict comparisons). -/
def create_index_suggestion (table column : String) (column_info : ColumnInfo)
    (usage_weight : ℚ) : Suggestion :=
  let ps0 := usage_weight
  let ps1 := if column_info.column_type = ColRole.FOREIGN_KEY then ps0 * 2 else ps0
  let ps2 := if column_info.selectivity > 1 / 10 then ps1 * (3 / 2) else ps1
  let ps3 := if column_info.selectivity < 1 / 100 then ps2 * (1 / 2) else ps2
  let table_name := (split1Dot table).2
  let index_name := "idx_" ++ table_name ++ "_" ++ column
  { type := SugType.single_column
    table := table
    columns := [column]
    index_name := index_name
    sql := "CREATE INDEX CONCURRENTLY " ++ index_name ++ " ON " ++ table
      ++ " (" ++ column ++ ");"
    priority_score := ps3
    estimated_benefit :=
      if ps3 > 1000000 then Benefit.HIGH
      else if ps3 > 100000 then Benefit.MEDIUM
      else Benefit.LOW }

/-! ## `_generate_foreign_key_indexes` (lines 431-452) -/

/-- The fixed-score foreign-key suggestion dict built at lines 441-450. -/
def fk_suggestion (table fk_column : String) : Suggestion :=
  let index_name := "idx_" ++ (split1Dot table).2 ++ "_" ++ fk_column
  { type := SugType.foreign_key
    table := table
    columns := [fk_column]
    index_name := index_name
    sql := "CREATE INDEX CONCURRENTLY " ++ index_name ++ " ON " ++ table
      ++ " (" ++ fk_column ++ ");"
    priority_score := 1000000
    estimated_benefit := Benefit.HIGH }

/-- For every foreign-key column of every table, emit a fixed-priority
suggestion unless the column is already indexed. -/
def generate_foreign_key_indexes (table_metadata : Metadata)
    (existing : ExistingIdx) : List Suggestion :=
  table_metadata.flatMap (fun p =>
    p.2.foreign_keys.filterMap (fun fk =>
      if column_already_indexed p.1 fk existing then none
      else some (fk_suggestion p.1 fk)))

/-! ## `_generate_composite_indexes` (lines 454-532) -/

/-- A hardcoded multi-column access pattern (`common_patterns`, lines
460-486; the `reasoning` strings are presentation only). -/
structure CompositePattern where
  table : String
  columns : List String
  deriving DecidableEq

/-- The five hardcoded CEDS patterns. -/
def common_patterns : List CompositePattern :=
  [ { table := "rds.fact_k12_student_enrollments"
      columns := ["school_year_id", "dim_k12_school_id"] }
  , { table := "rds.fact_k12_student_enrollments"
      columns := ["school_year_id", "dim_grade_level_id"] }
  , { table := "rds.fact_k12_student_enrollments"
      columns := ["dim_lea_id", "school_year_id"] }
  , { table := "staging.k12_enrollment"
      columns := ["school_year", "student_identifier_state"] }
  , { table := "staging.k12_enrollment"
      columns := ["school_identifier_state", "school_year"] } ]

/-- `_composite_index_exists` (lines 520-532): true iff some existing index
of the table has a lowercased definition containing every candidate column
(each lowercased) as a substring. -/
def composite_index_exists (table : String) (columns : List String)
    (existing : ExistingIdx) : Bool :=
  match lookup existing table with
  | none => false
  | some idxs => idxs.any (fun i =>
      columns.all (fun c => containsStr (lowerStr c) (lowerStr i.definition)))

/-- The composite suggestion dict built at lines 503-516. -/
def composite_suggestion (table : String) (columns : List String) : Suggestion :=
  let index_name := "idx_" ++ (split1Dot table).2 ++ "_" ++ String.intercalate "_" columns
  { type := SugType.composite
    table := table
    columns := columns
    index_name := index_name
    sql := "CREATE INDEX CONCURRENTLY " ++ index_name ++ " ON " ++ table
      ++ " (" ++ String.intercalate ", " columns ++ ");"
    priority_score := 500000
    estimated_benefit := Benefit.MEDIUM }

/-- Emit each hardcoded pattern whose table and columns all exist in the
metadata and that no existing index already covers. -/
def generate_composite_indexes (table_metadata : Metadata)
    (existing : ExistingIdx) : List Suggestion :=
  common_patterns.filterMap (fun pat =>
    match lookup table_metadata pat.table with
    | none => none
    | some tm =>
      if pat.columns.all (fun c => (lookup tm.columns c).isSome) then
        if composite_index_exists pat.table pat.columns existing then none
        else some (composite_suggestion pat.table pat.columns)
      else none)

/-! ## Workload extraction (`extract_table_columns_from_query` and helpers,
lines 135-207)

The source normalises the query text and runs three regex passes: it
collects schema-qualified `FROM`/`JOIN` targets, then scans the `WHERE`
clause for identifiers followed by a comparison operator, then the
`ORDER BY` list.  Here a query is embedded as the streams those regex
passes produce: the raw `FROM`/`JOIN` target strings in match order, and
the WHERE/ORDER BY column references, each an optional `alias.` prefix
plus a column name (the regexes admit no dot inside either part, so the
structured form is exact). -/

/-- One regex match of `[alias.]column` from a WHERE or ORDER BY scan. -/
structure ColRef where
  tableAlias : Option String
  column : String
  deriving DecidableEq

/-- A row of `analyze_query_patterns` output paired with its extracted
reference streams. -/
structure QueryPattern where
  fromTables : List String
  whereRefs : List ColRef
  orderRefs : List ColRef
  calls : ℚ
  mean_time : ℚ

/-- The schemas under analysis (`['rds', 'staging', 'ceds']`). -/
def analyzedSchemas : List String := ["rds", "staging", "ceds"]

/-- A `FROM`/`JOIN` target is kept iff it contains a dot and its schema
part is an analyzed schema (lines 150-153 and 159-162). -/
def schemaQualified (t : String) : Bool :=
  hasDot t && analyzedSchemas.contains (split1Dot t).1

/-- Collect the table dict keys, each mapped to an empty column set.  The
source assigns `table_columns[t] = set()` on every match; re-assignment of
a key already present leaves the (still empty) dict unchanged. -/
def collectTables (ts : List String) : List (String × List String) :=
  ts.foldl (fun acc t =>
    if schemaQualified t then
      if acc.any (fun p => decide (p.1 = t)) then acc else acc ++ [(t, [])]
    else acc) []

/-- Python `set.add`: append if absent. -/
def addSet (cols : List String) (c : String) : List String :=
  if c ∈ cols then cols else cols ++ [c]

/-- Alias resolution (lines 188-189 and 202-203):
`table_name.endswith(alias) or alias in table_name`. -/
def aliasMatch (table_name al : String) : Bool :=
  endsWithStr table_name al || containsStr al table_name

/-- Process one column reference: a qualified reference is added to every
table whose name matches the alias; an unqualified one is added to every
table (lines 183-194, duplicated at 199-207). -/
def refStep (tc : List (String × List String)) (r : ColRef) :
    List (String × List String) :=
  match r.tableAlias with
  | some al => tc.map (fun p =>
      if aliasMatch p.1 al then (p.1, addSet p.2 r.column) else p)
  | none => tc.map (fun p => (p.1, addSet p.2 r.column))

/-- Shared body of `_extract_columns_from_conditions` and
`_extract_columns_from_order_by`: the two source functions run the same
per-reference loop over their respective match streams. -/
def processRefs (refs : List ColRef) (tc : List (String × List String)) :
    List (String × List String) :=
  refs.foldl refStep tc

/-- `_extract_columns_from_conditions` (lines 179-194). -/
def extract_columns_from_conditions (refs : List ColRef)
    (tc : List (String × List String)) : List (String × List String) :=
  processRefs refs tc

/-- `_extract_columns_from_order_by` (lines 196-207). -/
def extract_columns_from_order_by (refs : List ColRef)
    (tc : List (String × List String)) : List (String × List String) :=
  processRefs refs tc

/-- `extract_table_columns_from_query` (lines 135-177): collect the
qualified tables, then attribute the WHERE references, then the ORDER BY
references. -/
def extract_table_columns_from_query (q : QueryPattern) :
    List (String × List String) :=
  extract_columns_from_order_by q.orderRefs
    (extract_columns_from_conditions q.whereRefs (collectTables q.fromTables))

/-! ## Usage accumulation (lines 333-346)

The source keys `column_usage` by the string `f"{table}.{column}"` and
recovers the pair with `rsplit('.', 1)`; since extracted column names
never contain a dot the two are in bijection, and the key is modelled
directly as the pair. -/

/-- `column_usage[key] += weight` on a `defaultdict(int)`. -/
def addWeight (usage : List ((String × String) × ℚ)) (k : String × String)
    (w : ℚ) : List ((String × String) × ℚ) :=
  if usage.any (fun e => decide (e.1 = k)) then
    usage.map (fun e => if e.1 = k then (e.1, e.2 + w) else e)
  else usage ++ [(k, w)]

/-- Accumulate `calls * mean_time` over every (table, column) reference of
every sampled query. -/
def build_usage (patterns : List QueryPattern) :
    List ((String × String) × ℚ) :=
  patterns.foldl (fun usage q =>
    (extract_table_columns_from_query q).foldl (fun u p =>
      p.2.foldl (fun u2 c => addWeight u2 (p.1, c) (q.calls * q.mean_time)) u)
      usage) []

/-! ## Stable descending sort

Models Python's stable `list.sort(key=..., reverse=True)` / `sorted(...)`:
any stable sort produces the same list, realised here as insertion sort
that keeps an element before later elements of equal key. -/

/-- Insert `x` before the first element whose key is not greater. -/
def insertDescBy {α : Type} (f : α → ℚ) (x : α) : List α → List α
  | [] => [x]
  | y :: ys => if f x < f y then y :: insertDescBy f x ys else x :: y :: ys

/-- Stable sort, descending by `f`. -/
def sortDescBy {α : Type} (f : α → ℚ) : List α → List α
  | [] => []
  | x :: xs => insertDescBy f x (sortDescBy f xs)

/-! ## `generate_index_suggestions` (lines 323-386) -/

/-- The per-item body of the single-column loop (lines 349-374): skip when
the table or column is missing from metadata, when the column is a primary
key, or when it is already indexed; otherwise build a suggestion. -/
def single_step (table_metadata : Metadata) (existing : ExistingIdx) :
    (String × String) × ℚ → Option Suggestion
  | ((t, c), w) =>
    match lookup table_metadata t with
    | none => none
    | some tm =>
      match lookup tm.columns c with
      | none => none
      | some ci =>
        if c ∈ tm.primary_keys then none
        else if column_already_indexed t c existing then none
        else some (create_index_suggestion t c ci w)

/-- The single-column strategy: iterate the usage pairs sorted by
descending accumulated weight. -/
def generate_single_column (usage : List ((String × String) × ℚ))
    (table_metadata : Metadata) (existing : ExistingIdx) : List Suggestion :=
  (sortDescBy (fun e => e.2) usage).filterMap (single_step table_metadata existing)

/-- The unranked concatenation of the three strategies (lines 349-382). -/
def generate_all (usage : List ((String × String) × ℚ))
    (table_metadata : Metadata) (existing : ExistingIdx) : List Suggestion :=
  generate_single_column usage table_metadata existing
    ++ generate_foreign_key_indexes table_metadata existing
    ++ generate_composite_indexes table_metadata existing

/-- `generate_index_suggestions`: build usage from the workload, run the
three strategies, sort descending by priority score, keep the top 50. -/
def generate_index_suggestions (patterns : List QueryPattern)
    (table_metadata : Metadata) (existing : ExistingIdx) : List Suggestion :=
  (sortDescBy (fun s => s.priority_score)
    (generate_all (build_usage patterns) table_metadata existing)).take 50

/-! ## Live catalog and the creation phase (lines 534-575)

The live `pg_indexes` catalog is a list of (name, table, definition) rows.
`CREATE INDEX CONCURRENTLY` appends the issued statement as the stored
definition; a failed build rolls back and leaves the catalog unchanged.
External failure causes (lock timeout, permissions, ...) are modelled as
an oracle on the index name. -/

/-- One `pg_indexes` row of the live catalog. -/
structure LiveIndex where
  name : String
  table : String
  definition : String
  deriving DecidableEq

/-- The row a successful `CREATE INDEX` adds for a suggestion. -/
def mkLiveIndex (s : Suggestion) : LiveIndex :=
  { name := s.index_name, table := s.table, definition := s.sql }

/-- Per-candidate outcome.  The source function returns a bool; the three
values refine its branches: the existence check at lines 553-562 yields
`ALREADY_EXISTS` (returns True without creating), a successful build yields
`CREATED` (returns True), and the exception handler at lines 572-575 yields
`FAILED` (returns False after rollback). -/
inductive Outcome
  | CREATED
  | ALREADY_EXISTS
  | FAILED
  deriving DecidableEq

/-- `_create_single_index` (lines 548-575): check the live catalog for the
exact generated name (no schema filter); if present, skip; otherwise issue
the build, which the failure oracle may abort. -/
def create_single_index (fail : String → Bool) (st : List LiveIndex)
    (s : Suggestion) : Outcome × List LiveIndex :=
  if st.any (fun i => decide (i.name = s.index_name)) then (Outcome.ALREADY_EXISTS, st)
  else if fail s.index_name then (Outcome.FAILED, st)
  else (Outcome.CREATED, st ++ [mkLiveIndex s])

/-- The loop body of `create_indexes` over the truncated suggestion list,
threading the live catalog and recording each outcome. -/
def create_indexes_go (fail : String → Bool) :
    List Suggestion → List LiveIndex → List (Suggestion × Outcome) × List LiveIndex
  | [], st => ([], st)
  | s :: rest, st =>
    let r1 := create_single_index fail st s
    let r2 := create_indexes_go fail rest r1.2
    ((s, r1.1) :: r2.1, r2.2)

/-- `create_indexes` (lines 534-546): process the first `max_indexes`
suggestions strictly sequentially. -/
def create_indexes (fail : String → Bool) (st : List LiveIndex)
    (suggestions : List Suggestion) (max_indexes : ℕ) :
    List (Suggestion × Outcome) × List LiveIndex :=
  create_indexes_go fail (suggestions.take max_indexes) st

/-- The `created` list the source function returns: the suggestions whose
`_create_single_index` call returned True (created or already existing). -/
def created_of (results : List (Suggestion × Outcome)) : List Suggestion :=
  (results.filter (fun p => decide (p.2 ≠ Outcome.FAILED))).map (fun p => p.1)

/-! ## `get_existing_indexes` (lines 292-321)

Reads the live catalog restricted to the analyzed schemas and groups the
rows by qualified table name. -/

/-- Key list with duplicates removed, keeping first occurrences. -/
def dedupKeys (ts : List String) : List String :=
  ts.foldl (fun acc t => if t ∈ acc then acc else acc ++ [t]) []

/-- Group the schema-filtered live rows by table. -/
def get_existing_indexes (live : List LiveIndex) : ExistingIdx :=
  let rows := live.filter (fun i => schemaQualified i.table)
  (dedupKeys (rows.map (fun i => i.table))).map (fun t =>
    (t, (rows.filter (fun i => decide (i.table = t))).map (fun i =>
      { name := i.name, definition := i.definition })))

/-! ## One full advisor run, for the two-run idempotence analysis -/

/-- Result of one `analyze + create` run. -/
structure RunResult where
  suggestions : List Suggestion
  results : List (Suggestion × Outcome)
  live : List LiveIndex

/-- One full pipeline run against a live catalog: snapshot the existing
indexes, generate the ranked suggestions, then create up to `maxIdx`. -/
def run_once (patterns : List QueryPattern) (table_metadata : Metadata)
    (fail : String → Bool) (live : List LiveIndex) (maxIdx : ℕ) : RunResult :=
  let suggs := generate_index_suggestions patterns table_metadata
    (get_existing_indexes live)
  let cr := create_indexes fail live suggs maxIdx
  { suggestions := suggs, results := cr.1, live := cr.2 }

/-! ## `analyze_index_effectiveness` (lines 577-613)

The classification CASE expression over live scan statistics; in SQL the
ratio `idx_tup_fetch::float / NULLIF(idx_tup_read, 0)` is NULL when
`idx_tup_read = 0`, and a NULL comparison does not satisfy the branch. -/

/-- Index effectiveness status. -/
inductive IndexStatus
  | UNUSED
  | LOW_USAGE
  | LOW_SELECTIVITY
  | GOOD
  deriving DecidableEq

/-- The CASE expression at lines 590-595. -/
def classify_index_usage (scans tuples_read tuples_fetched : ℕ) : IndexStatus :=
  if scans = 0 then IndexStatus.UNUSED
  else if scans < 100 then IndexStatus.LOW_USAGE
  else if (if tuples_read = 0 then false
           else (tuples_fetched : ℚ) / (tuples_read : ℚ) < 1 / 10) then
    IndexStatus.LOW_SELECTIVITY
  else IndexStatus.GOOD

/-! ## `main` (lines 704-789)

Command-line flow: a missing configuration file exits 1; a failed database
connection raises into the catch-all handler, which exits 1; otherwise the
requested phases run and the process ends with status 0.  Failures inside
the creation phase are caught per candidate and never raise. -/

/-- The argparse flags of interest. -/
structure Args where
  analyze : Bool
  create : Bool
  max_indexes : ℕ
  report_only : Bool

/-- The run's external inputs: configuration availability, connectivity,
the sampled workload, the metadata snapshot, the live catalog, and the
creation failure oracle. -/
structure MainEnv where
  configOk : Bool
  connectOk : Bool
  patterns : List QueryPattern
  meta : Metadata
  live : List LiveIndex
  fail : String → Bool

/-- Process exit status and the creation-phase outcomes of one invocation. -/
def mainRun (a : Args) (e : MainEnv) : ℕ × List (Suggestion × Outcome) :=
  if !e.configOk then (1, [])
  else if !e.connectOk then (1, [])
  else
    let existing := get_existing_indexes e.live
    let sugg0 := if a.analyze || a.report_only then
        generate_index_suggestions e.patterns e.meta existing
      else []
    let results := if a.create && !a.report_only then
        let suggs := if sugg0.isEmpty then
            generate_index_suggestions e.patterns e.meta existing
          else sugg0
        (create_indexes e.fail e.live suggs a.max_indexes).1
      else []
    (0, results)

/-! ## Spec-side reference definitions (for refinement comparisons) -/

/-- Modelled from the spec: scoring with `min(selectivity, 1.0)` applied
where the selectivity is used in the scoring multipliers, the clamp the
spec's §8 test asks for at the caller of the selectivity formula. -/
def create_index_suggestion_clamped (table column : String) (ci : ColumnInfo)
    (w : ℚ) : Suggestion :=
  create_index_suggestion table column { ci with selectivity := min ci.selectivity 1 } w

/-- Identifier characters for the spec's whole-token reading. -/
def isIdentChar (ch : Char) : Bool :=
  (decide ('a' ≤ ch) && decide (ch ≤ 'z'))
    || (decide ('A' ≤ ch) && decide (ch ≤ 'Z'))
    || (decide ('0' ≤ ch) && decide (ch ≤ '9'))
    || ch == '_'

/-- Split a character list into its maximal identifier-character runs,
accumulating the current (reversed) run. -/
def tokensAux : List Char → List Char → List (List Char)
  | cur, [] => if cur.isEmpty then [] else [cur.reverse]
  | cur, c :: rest =>
    if isIdentChar c then tokensAux (c :: cur) rest
    else if cur.isEmpty then tokensAux [] rest
    else cur.reverse :: tokensAux [] rest

/-- The identifier tokens of a string. -/
def tokensOf (s : String) : List (List Char) := tokensAux [] s.toList

/-- Lowercase a character list. -/
def lowerL (l : List Char) : List Char := l.map Char.toLower

/-- Modelled from the spec: `columnAlreadyIndexed(table, column)` is true
iff some existing index definition of the table contains the column name
as a whole token, compared case-insensitively. -/
def column_already_indexed_spec (table column : String)
    (existing : ExistingIdx) : Bool :=
  match lookup existing table with
  | none => false
  | some idxs => idxs.any (fun i =>
      (tokensOf i.definition).any (fun tok => lowerL tok == lowerL column.toList))

/-! ## Concrete scenario inputs for the claim theorems -/

/-- Workload of spec example scenario 1: one query on
`rds.fact_enrollment` filtering on `school_year_id`, 500 calls at 200ms. -/
def c4_patterns : List QueryPattern :=
  [{ fromTables := ["rds.fact_enrollment"]
     whereRefs := [{ tableAlias := none, column := "school_year_id" }]
     orderRefs := []
     calls := 500
     mean_time := 200 }]

/-- Metadata for scenario 1: `school_year_id` is REGULAR with
`n_distinct = -0.02` (selectivity 0.02). -/
def c4_meta : Metadata :=
  [("rds.fact_enrollment",
    { columns := [("school_year_id", mkColumnInfo ColRole.REGULAR (some (-(1 : ℚ) / 50)))]
      primary_keys := []
      foreign_keys := [] })]

/-- Workload for the duplicate-name scenario: one query hitting the
foreign-key column `c` of `rds.t`. -/
def c1_patterns : List QueryPattern :=
  [{ fromTables := ["rds.t"]
     whereRefs := [{ tableAlias := none, column := "c" }]
     orderRefs := []
     calls := 20
     mean_time := 150 }]

/-- Metadata with a single unindexed foreign-key column `c`. -/
def c1_meta : Metadata :=
  [("rds.t",
    { columns := [("c", mkColumnInfo ColRole.FOREIGN_KEY none)]
      primary_keys := []
      foreign_keys := ["c"] })]

/-- Metadata exposing three columns of the composite-pattern fact table,
so exactly the first two hardcoded composite patterns are eligible. -/
def c3_meta : Metadata :=
  [("rds.fact_k12_student_enrollments",
    { columns := [("school_year_id", mkColumnInfo ColRole.REGULAR none),
                  ("dim_k12_school_id", mkColumnInfo ColRole.REGULAR none),
                  ("dim_grade_level_id", mkColumnInfo ColRole.REGULAR none)]
      primary_keys := []
      foreign_keys := [] })]

/-- Run 1 of the idempotence counterexample: empty workload, empty
catalog, at most one index created per run. -/
def c3_run1 : RunResult := run_once [] c3_meta (fun _ => false) [] 1

/-- Run 2, against the catalog state run 1 left behind. -/
def c3_run2 : RunResult := run_once [] c3_meta (fun _ => false) c3_run1.live 1

/-- Metadata for the idempotence witness: a mixed-case foreign-key column
`Yr` and a lowercase workload column `b` on `rds.t`. -/
def c3w_meta : Metadata :=
  [("rds.t",
    { columns := [("Yr", mkColumnInfo ColRole.FOREIGN_KEY none),
                  ("b", mkColumnInfo ColRole.REGULAR none)]
      primary_keys := []
      foreign_keys := ["Yr"] })]

/-- Workload for the idempotence witness: one query filtering on `b`. -/
def c3w_patterns : List QueryPattern :=
  [{ fromTables := ["rds.t"]
     whereRefs := [{ tableAlias := none, column := "b" }]
     orderRefs := []
     calls := 20
     mean_time := 150 }]

/-- Run 1 of the idempotence witness scenario. -/
def c3w_run1 : RunResult := run_once c3w_patterns c3w_meta (fun _ => false) [] 5

/-- Run 2 of the idempotence witness scenario. -/
def c3w_run2 : RunResult := run_once c3w_patterns c3w_meta (fun _ => false) c3w_run1.live 5

/-- Arguments of an `--analyze --create` invocation. -/
def c2_args : Args :=
  { analyze := true, create := true, max_indexes := 20, report_only := false }

/-- Environment whose single candidate's build always fails. -/
def c2_env : MainEnv :=
  { configOk := true
    connectOk := true
    patterns := []
    meta := c1_meta
    live := []
    fail := fun _ => true }

/-- Existing-index snapshots for the already-indexed counterexamples: an
index on `school_id`, and an index on `id`. -/
def c7_existing1 : ExistingIdx :=
  [("rds.t", [{ name := "i1", definition := "CREATE INDEX i1 ON rds.t (school_id)" }])]

/-- Snapshot whose index definition names the column `id` exactly. -/
def c7_existing2 : ExistingIdx :=
  [("rds.t", [{ name := "i1", definition := "CREATE INDEX i1 ON rds.t (id)" }])]

/-- Metadata for the ranking witness: a regular column `a` beside primary
key `pk1`. -/
def c9_meta : Metadata :=
  [("rds.t",
    { columns := [("a", mkColumnInfo ColRole.REGULAR none),
                  ("pk1", mkColumnInfo ColRole.PRIMARY_KEY none)]
      primary_keys := ["pk1"]
      foreign_keys := [] })]

/-- Workload for the ranking witness: one query filtering on `a`. -/
def c9_patterns : List QueryPattern :=
  [{ fromTables := ["rds.t"]
     whereRefs := [{ tableAlias := none, column := "a" }]
     orderRefs := []
     calls := 11
     mean_time := 101 }]

/-- Two-table query whose unqualified WHERE column `k` is attributed to
both extracted tables. -/
def c10_q : QueryPattern :=
  { fromTables := ["rds.a", "staging.b"]
    whereRefs := [{ tableAlias := none, column := "k" }]
    orderRefs := []
    calls := 2
    mean_time := 3 }

/-! # Helper lemmas -/

theorem startsWithL_iff (n h : List Char) :
    startsWithL n h = true ↔ ∃ rest, h = n ++ rest := by
  induction n generalizing h with
  | nil => simp [startsWithL]
  | cons a as ih =>
    cases h with
    | nil => simp [startsWithL]
    | cons b bs =>
      simp only [startsWithL, Bool.and_eq_true, beq_iff_eq, ih, List.cons_append,
        List.cons.injEq]
      constructor
      · rintro ⟨rfl, rest, rfl⟩
        exact ⟨rest, rfl, rfl⟩
      · rintro ⟨rest, rfl, rfl⟩
        exact ⟨rfl, rest, rfl⟩

theorem containsL_iff (n h : List Char) :
    containsL n h = true ↔ ∃ pre post, h = pre ++ n ++ post := by
  induction h with
  | nil =>
    simp only [containsL, List.isEmpty_iff]
    constructor
    · rintro rfl
      exact ⟨[], [], rfl⟩
    · rintro ⟨pre, post, hpp⟩
      rcases List.append_eq_nil.mp hpp.symm with ⟨h1, _⟩
      exact (List.append_eq_nil.mp h1).2
  | cons c t ih =>
    simp only [containsL, Bool.or_eq_true, startsWithL_iff, ih]
    constructor
    · rintro (⟨rest, hr⟩ | ⟨pre, post, rfl⟩)
      · exact ⟨[], rest, by simpa using hr⟩
      · exact ⟨c :: pre, post, rfl⟩
    · rintro ⟨pre, post, hpp⟩
      cases pre with
      | nil => exact Or.inl ⟨post, by simpa using hpp⟩
      | cons p ps =>
        rcases List.cons.injEq .. ▸ hpp with ⟨_, ht⟩
        exact Or.inr ⟨ps, post, ht⟩

theorem containsStr_iff (n h : String) :
    containsStr n h = true ↔ ∃ pre post, h.toList = pre ++ n.toList ++ post :=
  containsL_iff n.toList h.toList

theorem lookup_mem {β : Type} {m : List (String × β)} {k : String} {v : β}
    (h : lookup m k = some v) : (k, v) ∈ m := by
  unfold lookup at h
  cases hf : m.find? (fun p => decide (p.1 = k)) with
  | none => rw [hf] at h; cases h
  | some pr =>
    rw [hf] at h
    have hm := List.mem_of_find?_eq_some hf
    have hp := List.find?_some hf
    have hk : pr.1 = k := of_decide_eq_true hp
    cases h
    have : pr = (k, pr.2) := by
      cases pr
      simpa using hk
    simpa [← this]

theorem lookup_map_eq {β : Type} (ks : List String) (g : String → β) (k : String)
    (hk : k ∈ ks) : lookup (ks.map (fun t => (t, g t))) k = some (g k) := by
  induction ks with
  | nil => cases hk
  | cons a as ih =>
    by_cases h : a = k
    · subst h
      simp [lookup, List.find?]
    · have hk2 : k ∈ as := by
        rcases List.mem_cons.mp hk with rfl | hk2
        · exact absurd rfl h
        · exact hk2
      simpa [lookup, List.find?, h] using ih hk2

theorem mem_foldl_dedup (ts : List String) (acc : List String) (t : String) :
    (t ∈ ts.foldl (fun acc u => if u ∈ acc then acc else acc ++ [u]) acc)
      ↔ t ∈ acc ∨ t ∈ ts := by
  induction ts generalizing acc with
  | nil => simp
  | cons a as ih =>
    simp only [List.foldl_cons, ih, List.mem_cons]
    split
    · constructor
      · rintro (h | h)
        · exact Or.inl h
        · exact Or.inr (Or.inr h)
      · rintro (h | rfl | h)
        · exact Or.inl h
        · exact Or.inl ‹t ∈ acc›
        · exact Or.inr h
    · simp only [List.mem_append, List.mem_singleton]
      tauto

theorem mem_dedupKeys (ts : List String) (t : String) :
    t ∈ dedupKeys ts ↔ t ∈ ts := by
  unfold dedupKeys
  rw [mem_foldl_dedup]
  simp

/-! ## Stable-sort lemmas -/

theorem mem_insertDescBy {α : Type} (f : α → ℚ) (x : α) (l : List α) (a : α) :
    a ∈ insertDescBy f x l ↔ a = x ∨ a ∈ l := by
  induction l with
  | nil => simp [insertDescBy]
  | cons y ys ih =>
    simp only [insertDescBy]
    split
    · rw [List.mem_cons, List.mem_cons, ih]
      tauto
    · exact List.mem_cons

theorem insertDescBy_perm {α : Type} (f : α → ℚ) (x : α) (l : List α) :
    (insertDescBy f x l).Perm (x :: l) := by
  induction l with
  | nil => exact List.Perm.refl _
  | cons y ys ih =>
    simp only [insertDescBy]
    split
    · exact (ih.cons y).trans (List.Perm.swap x y ys)
    · exact List.Perm.refl _

theorem sortDescBy_perm {α : Type} (f : α → ℚ) (l : List α) :
    (sortDescBy f l).Perm l := by
  induction l with
  | nil => exact List.Perm.refl _
  | cons x xs ih => exact (insertDescBy_perm f x (sortDescBy f xs)).trans (ih.cons x)

theorem sorted_insertDescBy {α : Type} (f : α → ℚ) (x : α) (l : List α)
    (h : List.Sorted (fun a b => f b ≤ f a) l) :
    List.Sorted (fun a b => f b ≤ f a) (insertDescBy f x l) := by
  induction l with
  | nil => simp [insertDescBy]
  | cons y ys ih =>
    rcases List.sorted_cons.mp h with ⟨hy, hys⟩
    simp only [insertDescBy]
    split
    · refine List.sorted_cons.mpr ⟨?_, ih hys⟩
      intro b hb
      rcases (mem_insertDescBy f x ys b).mp hb with rfl | hb
      · exact le_of_lt ‹f b < f y›
      · exact hy b hb
    · refine List.sorted_cons.mpr ⟨?_, h⟩
      intro b hb
      have hyx : f y ≤ f x := not_lt.mp ‹¬ f x < f y›
      rcases List.mem_cons.mp hb with rfl | hb
      · exact hyx
      · exact le_trans (hy b hb) hyx

theorem sorted_sortDescBy {α : Type} (f : α → ℚ) (l : List α) :
    List.Sorted (fun a b => f b ≤ f a) (sortDescBy f l) := by
  induction l with
  | nil => simp [sortDescBy]
  | cons x xs ih => exact sorted_insertDescBy f x (sortDescBy f xs) ih

theorem filter_insertDescBy {α : Type} (f : α → ℚ) (q : ℚ) (x : α) (l : List α) :
    (insertDescBy f x l).filter (fun a => decide (f a = q))
      = if f x = q then x :: l.filter (fun a => decide (f a = q))
        else l.filter (fun a => decide (f a = q)) := by
  induction l with
  | nil =>
    by_cases hx : f x = q <;> simp [insertDescBy, List.filter_cons, hx]
  | cons y ys ih =>
    simp only [insertDescBy]
    split
    · have hxy : f x < f y := ‹_›
      by_cases hx : f x = q
      · have hy : ¬ (f y = q) := by
          intro hyq
          exact absurd (hx ▸ hyq ▸ hxy) (lt_irrefl _)
        simp [List.filter_cons, hy, ih, hx]
      · simp [List.filter_cons, ih, hx]
    · by_cases hx : f x = q
      · simp [List.filter_cons, hx]
      · simp [List.filter_cons, hx]

theorem filter_sortDescBy {α : Type} (f : α → ℚ) (q : ℚ) (l : List α) :
    (sortDescBy f l).filter (fun a => decide (f a = q))
      = l.filter (fun a => decide (f a = q)) := by
  induction l with
  | nil => rfl
  | cons x xs ih =>
    simp only [sortDescBy, filter_insertDescBy, ih, List.filter_cons]
    by_cases hx : f x = q
    · simp [hx]
    · simp [hx]

/-! ## Generator characterizations -/

theorem single_step_inv {table_metadata : Metadata} {existing : ExistingIdx}
    {t c : String} {w : ℚ} {s : Suggestion}
    (h : single_step table_metadata existing ((t, c), w) = some s) :
    ∃ tm ci, lookup table_metadata t = some tm
      ∧ lookup tm.columns c = some ci
      ∧ c ∉ tm.primary_keys
      ∧ column_already_indexed t c existing = false
      ∧ s = create_index_suggestion t c ci w := by
  cases h1 : lookup table_metadata t with
  | none => simp [single_step, h1] at h
  | some tm =>
    cases h2 : lookup tm.columns c with
    | none => simp [single_step, h1, h2] at h
    | some ci =>
      simp only [single_step, h1, h2] at h
      split_ifs at h with hpk hidx
      exact ⟨tm, ci, rfl, h2, hpk, by simpa using hidx, (Option.some.inj h).symm⟩

theorem single_step_sound {table_metadata : Metadata} {existing : ExistingIdx}
    {t c : String} {w : ℚ} {tm : TableMeta} {ci : ColumnInfo}
    (h1 : lookup table_metadata t = some tm)
    (h2 : lookup tm.columns c = some ci)
    (h3 : c ∉ tm.primary_keys)
    (h4 : column_already_indexed t c existing = false) :
    single_step table_metadata existing ((t, c), w)
      = some (create_index_suggestion t c ci w) := by
  simp only [single_step, h1, h2]
  rw [if_neg h3, if_neg (by simp [h4])]

theorem mem_generate_single_column {usage : List ((String × String) × ℚ)}
    {table_metadata : Metadata} {existing : ExistingIdx} {s : Suggestion} :
    s ∈ generate_single_column usage table_metadata existing
      ↔ ∃ e ∈ usage, single_step table_metadata existing e = some s := by
  unfold generate_single_column
  rw [List.mem_filterMap]
  constructor
  · rintro ⟨e, he, hs⟩
    exact ⟨e, ((sortDescBy_perm (fun e => e.2) usage).mem_iff).mp he, hs⟩
  · rintro ⟨e, he, hs⟩
    exact ⟨e, ((sortDescBy_perm (fun e => e.2) usage).mem_iff).mpr he, hs⟩

theorem mem_generate_fk {table_metadata : Metadata} {existing : ExistingIdx}
    {s : Suggestion} :
    s ∈ generate_foreign_key_indexes table_metadata existing
      ↔ ∃ p ∈ table_metadata, ∃ fk ∈ p.2.foreign_keys,
          column_already_indexed p.1 fk existing = false ∧ s = fk_suggestion p.1 fk := by
  unfold generate_foreign_key_indexes
  rw [List.mem_flatMap]
  constructor
  · rintro ⟨p, hp, hin⟩
    rcases List.mem_filterMap.mp hin with ⟨fk, hfk, hsome⟩
    by_cases hidx : column_already_indexed p.1 fk existing = true
    · rw [if_pos hidx] at hsome; cases hsome
    · rw [if_neg hidx] at hsome
      exact ⟨p, hp, fk, hfk, Bool.not_eq_true _ ▸ hidx, (Option.some.inj hsome).symm⟩
  · rintro ⟨p, hp, fk, hfk, hidx, rfl⟩
    refine ⟨p, hp, List.mem_filterMap.mpr ⟨fk, hfk, ?_⟩⟩
    rw [if_neg (by simp [hidx])]

theorem mem_generate_composite {table_metadata : Metadata} {existing : ExistingIdx}
    {s : Suggestion} (h : s ∈ generate_composite_indexes table_metadata existing) :
    ∃ pat ∈ common_patterns, s = composite_suggestion pat.table pat.columns := by
  unfold generate_composite_indexes at h
  rcases List.mem_filterMap.mp h with ⟨pat, hpat, hsome⟩
  refine ⟨pat, hpat, ?_⟩
  cases h1 : lookup table_metadata pat.table with
  | none =>
    simp only [h1] at hsome
    cases hsome
  | some tm =>
    simp only [h1] at hsome
    by_cases hall : (pat.columns.all fun c => (lookup tm.columns c).isSome) = true
    · rw [if_pos hall] at hsome
      by_cases hex : composite_index_exists pat.table pat.columns existing = true
      · rw [if_pos hex] at hsome
        cases hsome
      · rw [if_neg hex] at hsome
        exact (Option.some.inj hsome).symm
    · rw [if_neg hall] at hsome
      cases hsome

theorem mem_generate_index_suggestions {patterns : List QueryPattern}
    {table_metadata : Metadata} {existing : ExistingIdx} {s : Suggestion}
    (h : s ∈ generate_index_suggestions patterns table_metadata existing) :
    s ∈ generate_all (build_usage patterns) table_metadata existing := by
  unfold generate_index_suggestions at h
  exact ((sortDescBy_perm (fun s => s.priority_score) _).mem_iff).mp
    (List.mem_of_mem_take h)

/-! ## Creation-phase lemmas -/

theorem create_single_live_mem {fail : String → Bool} {st : List LiveIndex}
    {s : Suggestion} {i : LiveIndex} (h : i ∈ st) :
    i ∈ (create_single_index fail st s).2 := by
  unfold create_single_index
  split
  · exact h
  · split
    · exact h
    · exact List.mem_append.mpr (Or.inl h)

theorem create_go_live_mem (fail : String → Bool) (l : List Suggestion)
    (st : List LiveIndex) {i : LiveIndex} (h : i ∈ st) :
    i ∈ (create_indexes_go fail l st).2 := by
  induction l generalizing st with
  | nil => exact h
  | cons s rest ih =>
    simp only [create_indexes_go]
    exact ih _ (create_single_live_mem h)

theorem create_go_already (fail : String → Bool) (l : List Suggestion)
    (st : List LiveIndex) {s : Suggestion} {o : Outcome}
    (h : (s, o) ∈ (create_indexes_go fail l st).1)
    (hn : s.index_name ∈ st.map (fun i => i.name)) :
    o = Outcome.ALREADY_EXISTS := by
  induction l generalizing st with
  | nil => cases h
  | cons s1 rest ih =>
    simp only [create_indexes_go] at h
    rcases List.mem_cons.mp h with h1 | h1
    · have hs : s = s1 := congrArg Prod.fst h1
      have ho : o = (create_single_index fail st s1).1 := congrArg Prod.snd h1
      have hany : st.any (fun i => decide (i.name = s1.index_name)) = true := by
        rcases List.mem_map.mp hn with ⟨i, hi, hname⟩
        refine List.any_eq_true.mpr ⟨i, hi, ?_⟩
        rw [hname, hs]
        simp
      rw [ho]
      unfold create_single_index
      rw [if_pos hany]
    · apply ih _ h1
      rcases List.mem_map.mp hn with ⟨i, hi, hname⟩
      exact List.mem_map.mpr ⟨i, create_single_live_mem hi, hname⟩

theorem create_go_created (fail : String → Bool) (l : List Suggestion)
    (st : List LiveIndex) {s : Suggestion}
    (h : (s, Outcome.CREATED) ∈ (create_indexes_go fail l st).1) :
    mkLiveIndex s ∈ (create_indexes_go fail l st).2 := by
  induction l generalizing st with
  | nil => cases h
  | cons s1 rest ih =>
    simp only [create_indexes_go] at h ⊢
    rcases List.mem_cons.mp h with h1 | h1
    · have hs : s = s1 := congrArg Prod.fst h1
      subst hs
      have ho : (create_single_index fail st s).1 = Outcome.CREATED :=
        (congrArg Prod.snd h1).symm
      apply create_go_live_mem
      unfold create_single_index at ho ⊢
      by_cases hA : (st.any fun i => decide (i.name = s.index_name)) = true
      · rw [if_pos hA] at ho
        simp at ho
      · rw [if_neg hA] at ho ⊢
        by_cases hF : fail s.index_name = true
        · rw [if_pos hF] at ho
          simp at ho
        · rw [if_neg hF]
          exact List.mem_append.mpr (Or.inr (List.mem_singleton.mpr rfl))
    · exact ih _ h1

/-! ## Existing-index snapshot lemmas -/

theorem lookup_get_existing (live : List LiveIndex) {i : LiveIndex}
    (hi : i ∈ live) (hs : schemaQualified i.table = true) :
    lookup (get_existing_indexes live) i.table
      = some (((live.filter (fun j => schemaQualified j.table)).filter
          (fun j => decide (j.table = i.table))).map (fun j =>
            ({ name := j.name, definition := j.definition } : ExIndex))) := by
  unfold get_existing_indexes
  have hmem : i.table ∈ dedupKeys ((live.filter
      (fun j => schemaQualified j.table)).map (fun j => j.table)) := by
    rw [mem_dedupKeys]
    exact List.mem_map.mpr ⟨i, List.mem_filter.mpr ⟨hi, hs⟩, rfl⟩
  exact lookup_map_eq _ _ _ hmem

theorem column_already_indexed_of_live {live : List LiveIndex} {i : LiveIndex}
    {c : String} (hi : i ∈ live) (hs : schemaQualified i.table = true)
    (hc : containsStr c (lowerStr i.definition) = true) :
    column_already_indexed i.table c (get_existing_indexes live) = true := by
  unfold column_already_indexed
  rw [lookup_get_existing live hi hs]
  apply List.any_eq_true.mpr
  refine ⟨{ name := i.name, definition := i.definition }, ?_, hc⟩
  apply List.mem_map.mpr
  refine ⟨i, ?_, rfl⟩
  exact List.mem_filter.mpr ⟨List.mem_filter.mpr ⟨hi, hs⟩, by simp⟩

/-! ## Extraction and usage-accumulation lemmas -/

theorem mem_addSet_self (cols : List String) (c : String) : c ∈ addSet cols c := by
  unfold addSet
  split
  · assumption
  · exact List.mem_append.mpr (Or.inr (List.mem_singleton.mpr rfl))

theorem mem_addSet_mono {cols : List String} {x : String} (c : String)
    (h : x ∈ cols) : x ∈ addSet cols c := by
  unfold addSet
  split
  · exact h
  · exact List.mem_append.mpr (Or.inl h)

theorem refStep_preserves {tc : List (String × List String)} {x : String}
    (r : ColRef) (h : ∀ p ∈ tc, x ∈ p.2) :
    ∀ p ∈ refStep tc r, x ∈ p.2 := by
  intro p hp
  unfold refStep at hp
  cases hr : r.tableAlias with
  | some al =>
    rw [hr] at hp
    rcases List.mem_map.mp hp with ⟨p0, hp0, rfl⟩
    split
    · exact mem_addSet_mono _ (h p0 hp0)
    · exact h p0 hp0
  | none =>
    rw [hr] at hp
    rcases List.mem_map.mp hp with ⟨p0, hp0, rfl⟩
    exact mem_addSet_mono _ (h p0 hp0)

theorem processRefs_preserves {tc : List (String × List String)} {x : String}
    (refs : List ColRef) (h : ∀ p ∈ tc, x ∈ p.2) :
    ∀ p ∈ processRefs refs tc, x ∈ p.2 := by
  induction refs generalizing tc with
  | nil => exact h
  | cons r rest ih => exact ih (refStep_preserves r h)

theorem refStep_none_adds {tc : List (String × List String)} {r : ColRef}
    (hr : r.tableAlias = none) :
    ∀ p ∈ refStep tc r, r.column ∈ p.2 := by
  intro p hp
  unfold refStep at hp
  rw [hr] at hp
  rcases List.mem_map.mp hp with ⟨p0, hp0, rfl⟩
  exact mem_addSet_self _ _

theorem processRefs_adds {tc : List (String × List String)} {r : ColRef}
    {refs : List ColRef} (hmem : r ∈ refs) (hr : r.tableAlias = none) :
    ∀ p ∈ processRefs refs tc, r.column ∈ p.2 := by
  induction refs generalizing tc with
  | nil => cases hmem
  | cons r1 rest ih =>
    rcases List.mem_cons.mp hmem with rfl | hmem2
    · exact processRefs_preserves rest (refStep_none_adds hr)
    · exact ih hmem2

theorem addWeight_present (u : List ((String × String) × ℚ))
    (k : String × String) (w : ℚ) : ∃ v, (k, v) ∈ addWeight u k w := by
  unfold addWeight
  split
  · rcases List.any_eq_true.mp ‹_› with ⟨e, he, hk⟩
    have hek : e.1 = k := of_decide_eq_true hk
    refine ⟨e.2 + w, List.mem_map.mpr ⟨e, he, ?_⟩⟩
    rw [if_pos hek, hek]
  · exact ⟨w, List.mem_append.mpr (Or.inr (List.mem_singleton.mpr rfl))⟩

theorem addWeight_preserves {u : List ((String × String) × ℚ)}
    {k : String × String} (k0 : String × String) (w : ℚ)
    (h : ∃ v, (k, v) ∈ u) : ∃ v, (k, v) ∈ addWeight u k0 w := by
  rcases h with ⟨v, hv⟩
  unfold addWeight
  split
  · by_cases hk : (k, v).1 = k0
    · refine ⟨v + w, List.mem_map.mpr ⟨(k, v), hv, ?_⟩⟩
      rw [if_pos hk]
    · refine ⟨v, List.mem_map.mpr ⟨(k, v), hv, ?_⟩⟩
      rw [if_neg hk]
  · exact ⟨v, List.mem_append.mpr (Or.inl hv)⟩

theorem foldl_addWeight_preserves {u : List ((String × String) × ℚ)}
    {k : String × String} (t : String) (w : ℚ) (cols : List String)
    (h : ∃ v, (k, v) ∈ u) :
    ∃ v, (k, v) ∈ cols.foldl (fun u2 c => addWeight u2 (t, c) w) u := by
  induction cols generalizing u with
  | nil => exact h
  | cons c rest ih => exact ih (addWeight_preserves (t, c) w h)

theorem foldl_addWeight_present {u : List ((String × String) × ℚ)}
    (t : String) (w : ℚ) {c : String} {cols : List String} (hc : c ∈ cols) :
    ∃ v, ((t, c), v) ∈ cols.foldl (fun u2 c2 => addWeight u2 (t, c2) w) u := by
  induction cols generalizing u with
  | nil => cases hc
  | cons c1 rest ih =>
    rcases List.mem_cons.mp hc with rfl | hc2
    · exact foldl_addWeight_preserves t w rest (addWeight_present u (t, c) w)
    · exact ih hc2

theorem tc_foldl_preserves {u : List ((String × String) × ℚ)}
    {k : String × String} (w : ℚ) (tc : List (String × List String))
    (h : ∃ v, (k, v) ∈ u) :
    ∃ v, (k, v) ∈ tc.foldl (fun u2 p =>
      p.2.foldl (fun u3 c => addWeight u3 (p.1, c) w) u2) u := by
  induction tc generalizing u with
  | nil => exact h
  | cons p rest ih => exact ih (foldl_addWeight_preserves p.1 w p.2 h)

theorem tc_foldl_present {u : List ((String × String) × ℚ)} (w : ℚ)
    {tc : List (String × List String)} {p : String × List String} {c : String}
    (hp : p ∈ tc) (hc : c ∈ p.2) :
    ∃ v, ((p.1, c), v) ∈ tc.foldl (fun u2 q =>
      q.2.foldl (fun u3 c2 => addWeight u3 (q.1, c2) w) u2) u := by
  induction tc generalizing u with
  | nil => cases hp
  | cons q rest ih =>
    rcases List.mem_cons.mp hp with rfl | hp2
    · exact tc_foldl_preserves w rest (foldl_addWeight_present p.1 w hc)
    · exact ih hp2

/-! # Claim theorems -/

/-- C5: for every `distinctCount` input, selectivity is 0.5 on `null`,
`abs(distinctCount)` on a negative value, and
`min(distinctCount / 1000000, 1.0)` on a non-negative value (the default
`ROW_COUNT_ASSUMPTION` of 1,000,000). -/
theorem c5_selectivity_cases (nd : Option ℚ) :
    (nd = none → calculate_selectivity nd = 1 / 2)
    ∧ (∀ v, nd = some v → v < 0 → calculate_selectivity nd = |v|)
    ∧ (∀ v, nd = some v → 0 ≤ v → calculate_selectivity nd = min (v / 1000000) 1) := by
  refine ⟨?_, ?_, ?_⟩
  · rintro rfl
    rfl
  · rintro v rfl hv
    simp only [calculate_selectivity]
    rw [if_pos hv]
  · rintro v rfl hv
    simp only [calculate_selectivity]
    rw [if_neg (not_lt.mpr hv)]

/-- Witness for C5 at the three kinds of concrete input. -/
theorem c5_selectivity_cases_witness :
    calculate_selectivity none = 1 / 2
    ∧ calculate_selectivity (some (-3)) = |(-3 : ℚ)|
    ∧ calculate_selectivity (some 2500000) = min ((2500000 : ℚ) / 1000000) 1 :=
  ⟨(c5_selectivity_cases none).1 rfl,
   (c5_selectivity_cases (some (-3))).2.1 (-3) rfl (by norm_num),
   (c5_selectivity_cases (some 2500000)).2.2 2500000 rfl (by norm_num)⟩

/-- C8: the effectiveness classification is total, applies its branches in
order (`scans = 0` first, then `scans < 100`, then the fetched/read ratio
with its divide-by-zero guard), and classifies `scans = 0, tuplesRead = 0`
as UNUSED. -/
theorem c8_effectiveness_classification (scans tuples_read tuples_fetched : ℕ) :
    (scans = 0 → classify_index_usage scans tuples_read tuples_fetched
        = IndexStatus.UNUSED)
    ∧ (scans ≠ 0 → scans < 100 →
        classify_index_usage scans tuples_read tuples_fetched
          = IndexStatus.LOW_USAGE)
    ∧ (100 ≤ scans → tuples_read ≠ 0 →
        (tuples_fetched : ℚ) / (tuples_read : ℚ) < 1 / 10 →
        classify_index_usage scans tuples_read tuples_fetched
          = IndexStatus.LOW_SELECTIVITY)
    ∧ (100 ≤ scans →
        (tuples_read = 0 ∨ 1 / 10 ≤ (tuples_fetched : ℚ) / (tuples_read : ℚ)) →
        classify_index_usage scans tuples_read tuples_fetched
          = IndexStatus.GOOD)
    ∧ classify_index_usage 0 0 tuples_fetched = IndexStatus.UNUSED := by
  refine ⟨?_, ?_, ?_, ?_, ?_⟩
  · intro h
    simp only [classify_index_usage]
    rw [if_pos h]
  · intro h0 h100
    simp only [classify_index_usage]
    rw [if_neg h0, if_pos h100]
  · intro h100 hr hlt
    simp only [classify_index_usage]
    rw [if_neg (by omega), if_neg (by omega), if_pos]
    rw [if_neg hr]
    exact decide_eq_true hlt
  · intro h100 hcase
    simp only [classify_index_usage]
    rw [if_neg (by omega), if_neg (by omega), if_neg]
    rcases hcase with hzero | hge
    · rw [if_pos hzero]
      exact Bool.false_ne_true
    · by_cases hz : tuples_read = 0
      · rw [if_pos hz]
        exact Bool.false_ne_true
      · rw [if_neg hz]
        simpa using not_lt.mpr hge
  · rfl

/-- Witness for C8 at concrete inputs for each branch. -/
theorem c8_effectiveness_classification_witness :
    classify_index_usage 0 0 7 = IndexStatus.UNUSED
    ∧ classify_index_usage 5 0 0 = IndexStatus.LOW_USAGE
    ∧ classify_index_usage 200 100 1 = IndexStatus.LOW_SELECTIVITY
    ∧ classify_index_usage 200 0 0 = IndexStatus.GOOD :=
  ⟨(c8_effectiveness_classification 0 0 7).1 rfl,
   (c8_effectiveness_classification 5 0 0).2.1 (by norm_num) (by norm_num),
   (c8_effectiveness_classification 200 100 1).2.2.1 (by norm_num) (by norm_num)
     (by norm_num),
   (c8_effectiveness_classification 200 0 0).2.2.2.1 (by norm_num) (Or.inl rfl)⟩

/-- C6: clamping the selectivity with `min(selectivity, 1.0)` at the
scoring comparisons never changes the computed score or benefit: the
boost (`> 0.10`) and penalty (`< 0.01`) comparisons decide identically on
the raw and on the clamped value, so an out-of-range selectivity (which
does arise, e.g. `abs` of `distinctCount = -5` is 5 > 1) cannot produce a
score different from its clamped counterpart. -/
theorem c6_clamp_equivalent :
    (∀ table column ci w,
      (create_index_suggestion table column ci w).priority_score
          = (create_index_suggestion_clamped table column ci w).priority_score
        ∧ (create_index_suggestion table column ci w).estimated_benefit
          = (create_index_suggestion_clamped table column ci w).estimated_benefit)
    ∧ 1 < calculate_selectivity (some (-5)) := by
  constructor
  · intro table column ci w
    have h1 : (min ci.selectivity 1 > (1 : ℚ) / 10) ↔ (ci.selectivity > (1 : ℚ) / 10) := by
      constructor
      · intro h
        exact (lt_min_iff.mp h).1
      · intro h
        exact lt_min_iff.mpr ⟨h, by norm_num⟩
    have h2 : (min ci.selectivity 1 < (1 : ℚ) / 100) ↔ (ci.selectivity < (1 : ℚ) / 100) := by
      constructor
      · intro h
        rcases min_lt_iff.mp h with h | h
        · exact h
        · norm_num at h
      · intro h
        exact min_lt_iff.mpr (Or.inl h)
    constructor
    · simp only [create_index_suggestion_clamped, create_index_suggestion, h1, h2]
    · simp only [create_index_suggestion_clamped, create_index_suggestion, h1, h2]
  · norm_num [calculate_selectivity]

/-- C7 counterexample: the already-indexed check is a plain substring test
against the lowercased definition, not a whole-token case-insensitive
comparison: column `id` matches an index on `school_id` (substring, where
the whole-token reading says no), and column `ID` fails to match an index
on `id` (case-sensitive needle, where the case-insensitive reading says
yes). -/
theorem c7_counterexample :
    (column_already_indexed "rds.t" "id" c7_existing1 = true
      ∧ column_already_indexed_spec "rds.t" "id" c7_existing1 = false)
    ∧ (column_already_indexed "rds.t" "ID" c7_existing2 = false
      ∧ column_already_indexed_spec "rds.t" "ID" c7_existing2 = true) :=
  ⟨⟨rfl, rfl⟩, ⟨rfl, rfl⟩⟩

/-- C7 amended: `columnAlreadyIndexed(table, column)` returns true iff the
table has an existing index whose definition text, lowercased, contains
the column name (as given, case-sensitively) as a contiguous substring —
so a column name that is merely a substring of another identifier does
match, and a column name with an uppercase letter never matches. -/
theorem c7_amended (table column : String) (existing : ExistingIdx) :
    column_already_indexed table column existing = true
      ↔ ∃ idxs, lookup existing table = some idxs
          ∧ ∃ i ∈ idxs, ∃ pre post,
              (lowerStr i.definition).toList = pre ++ column.toList ++ post := by
  unfold column_already_indexed
  cases h : lookup existing table with
  | none =>
    simp only []
    constructor
    · intro hfalse
      cases hfalse
    · rintro ⟨idxs, hidxs, _⟩
      cases hidxs
  | some idxs =>
    simp only [List.any_eq_true]
    constructor
    · rintro ⟨i, hi, hc⟩
      exact ⟨idxs, rfl, i, hi, containsStr_iff _ _ |>.mp hc⟩
    · rintro ⟨idxs2, hidxs2, i, hi, hsub⟩
      cases hidxs2
      exact ⟨i, hi, containsStr_iff _ _ |>.mpr hsub⟩

/-- C4 counterexample: in the spec's example scenario 1 (weight
500 × 200 = 100,000, REGULAR role, selectivity 0.02), the generated
candidate's priority score is exactly 100,000 and its estimated benefit is
LOW, not MEDIUM: the `> 100,000` threshold is strict. -/
theorem c4_counterexample :
    ((generate_index_suggestions c4_patterns c4_meta []).map
        (fun s => (s.priority_score, s.estimated_benefit))
      = [(100000, Benefit.LOW)])
    ∧ Benefit.LOW ≠ Benefit.MEDIUM :=
  ⟨by with_unfolding_all rfl, by decide⟩

/-- C4 amended: estimated benefit is HIGH when the priority score exceeds
1,000,000, MEDIUM when it exceeds 100,000 (strictly) without exceeding
1,000,000, and otherwise LOW; the scenario-1 workload therefore yields a
candidate with score exactly 100,000 and benefit LOW. -/
theorem c4_amended :
    (∀ table column ci w,
      ((create_index_suggestion table column ci w).priority_score > 1000000 →
          (create_index_suggestion table column ci w).estimated_benefit = Benefit.HIGH)
        ∧ ((create_index_suggestion table column ci w).priority_score ≤ 1000000 →
            (create_index_suggestion table column ci w).priority_score > 100000 →
            (create_index_suggestion table column ci w).estimated_benefit = Benefit.MEDIUM)
        ∧ ((create_index_suggestion table column ci w).priority_score ≤ 100000 →
            (create_index_suggestion table column ci w).estimated_benefit = Benefit.LOW))
    ∧ (generate_index_suggestions c4_patterns c4_meta []).map
        (fun s => (s.priority_score, s.estimated_benefit)) = [(100000, Benefit.LOW)] := by
  constructor
  · intro table column ci w
    refine ⟨?_, ?_, ?_⟩
    · intro h
      simp only [create_index_suggestion] at h ⊢
      rw [if_pos h]
    · intro h1 h2
      simp only [create_index_suggestion] at h1 h2 ⊢
      rw [if_neg (not_lt.mpr h1), if_pos h2]
    · intro h
      simp only [create_index_suggestion] at h ⊢
      rw [if_neg (not_lt.mpr (h.trans (by norm_num))), if_neg (not_lt.mpr h)]
  · with_unfolding_all rfl

/-- Witness for C4 amended, exercising all three benefit bands. -/
theorem c4_amended_witness :
    (create_index_suggestion "rds.t" "c" (mkColumnInfo ColRole.REGULAR none)
        2000000).estimated_benefit = Benefit.HIGH
    ∧ (create_index_suggestion "rds.t" "c" (mkColumnInfo ColRole.REGULAR none)
        200000).estimated_benefit = Benefit.MEDIUM
    ∧ (create_index_suggestion "rds.t" "c" (mkColumnInfo ColRole.REGULAR none)
        50000).estimated_benefit = Benefit.LOW :=
  ⟨(c4_amended.1 "rds.t" "c" (mkColumnInfo ColRole.REGULAR none) 2000000).1
     (of_decide_eq_true (by with_unfolding_all rfl)),
   (c4_amended.1 "rds.t" "c" (mkColumnInfo ColRole.REGULAR none) 200000).2.1
     (of_decide_eq_true (by with_unfolding_all rfl))
     (of_decide_eq_true (by with_unfolding_all rfl)),
   (c4_amended.1 "rds.t" "c" (mkColumnInfo ColRole.REGULAR none) 50000).2.2
     (of_decide_eq_true (by with_unfolding_all rfl))⟩

/-- C1 counterexample: with one unindexed FOREIGN KEY column that also
carries workload weight, the generator emits two candidates (one from the
single-column strategy, one from the foreign-key strategy) with the same
name, so the emitted names are not duplicate-free. -/
theorem c1_counterexample :
    ¬ (((generate_index_suggestions c1_patterns c1_meta []).map
        (fun s => s.index_name)).Nodup) := by
  have h : (generate_index_suggestions c1_patterns c1_meta []).map
      (fun s => s.index_name) = ["idx_t_c", "idx_t_c"] := by
    with_unfolding_all rfl
  rw [h]
  simp

/-- C1 amended: the single-column strategy skips only primary-key,
metadata-missing and already-indexed columns; a foreign-key column that
accumulates workload weight and is not already indexed is emitted by both
the single-column and the foreign-key strategies with the identical
generated name, so one run can emit two candidates with the same name. -/
theorem c1_amended {usage : List ((String × String) × ℚ)}
    {table_metadata : Metadata} {existing : ExistingIdx}
    {t c : String} {w : ℚ} {tm : TableMeta} {ci : ColumnInfo}
    (h1 : lookup table_metadata t = some tm)
    (h2 : lookup tm.columns c = some ci)
    (h3 : c ∉ tm.primary_keys)
    (h4 : c ∈ tm.foreign_keys)
    (h5 : column_already_indexed t c existing = false)
    (h6 : ((t, c), w) ∈ usage) :
    ∃ s1 s2, s1 ∈ generate_all usage table_metadata existing
      ∧ s2 ∈ generate_all usage table_metadata existing
      ∧ s1.type = SugType.single_column ∧ s2.type = SugType.foreign_key
      ∧ s1.index_name = s2.index_name
      ∧ s1.table = t ∧ s2.table = t ∧ s1.columns = [c] ∧ s2.columns = [c] := by
  refine ⟨create_index_suggestion t c ci w, fk_suggestion t c, ?_, ?_,
    rfl, rfl, rfl, rfl, rfl, rfl, rfl⟩
  · unfold generate_all
    refine List.mem_append.mpr (Or.inl (List.mem_append.mpr (Or.inl ?_)))
    exact mem_generate_single_column.mpr ⟨((t, c), w), h6, single_step_sound h1 h2 h3 h5⟩
  · unfold generate_all
    refine List.mem_append.mpr (Or.inl (List.mem_append.mpr (Or.inr ?_)))
    exact mem_generate_fk.mpr ⟨(t, tm), lookup_mem h1, c, h4, h5, rfl⟩

/-- Witness for C1 amended at the concrete duplicate-name scenario. -/
theorem c1_amended_witness :
    ∃ s1 s2, s1 ∈ generate_all [(("rds.t", "c"), 3000)] c1_meta []
      ∧ s2 ∈ generate_all [(("rds.t", "c"), 3000)] c1_meta []
      ∧ s1.type = SugType.single_column ∧ s2.type = SugType.foreign_key
      ∧ s1.index_name = s2.index_name
      ∧ s1.table = "rds.t" ∧ s2.table = "rds.t"
      ∧ s1.columns = ["c"] ∧ s2.columns = ["c"] :=
  @c1_amended [(("rds.t", "c"), 3000)] c1_meta [] "rds.t" "c" 3000
    { columns := [("c", mkColumnInfo ColRole.FOREIGN_KEY none)]
      primary_keys := []
      foreign_keys := ["c"] }
    (mkColumnInfo ColRole.FOREIGN_KEY none)
    rfl rfl (by decide) (by decide) rfl
    (List.mem_singleton.mpr rfl)

/-- C2 counterexample: an `--analyze --create` run whose only candidate's
build fails still exits with status 0, contradicting "non-zero iff some
creation failed". -/
theorem c2_counterexample :
    (mainRun c2_args c2_env).1 = 0
    ∧ (mainRun c2_args c2_env).2.any (fun p => decide (p.2 = Outcome.FAILED)) = true :=
  ⟨by with_unfolding_all rfl, by with_unfolding_all rfl⟩

/-- C2 amended: the process exit status is 0 whenever the configuration
loads and the connection succeeds — per-candidate creation failures are
caught, logged and never affect the exit status (so the exit status is
independent of the creation-failure oracle) — and 1 exactly on a
configuration or connection failure; analysis-only runs likewise exit 0
regardless of extraction quality. -/
theorem c2_amended (a : Args) (e : MainEnv) :
    (e.configOk = true → e.connectOk = true → (mainRun a e).1 = 0)
    ∧ (e.configOk = false ∨ e.connectOk = false → (mainRun a e).1 = 1)
    ∧ (∀ f1 f2, (mainRun a { e with fail := f1 }).1
        = (mainRun a { e with fail := f2 }).1) := by
  refine ⟨?_, ?_, ?_⟩
  · intro h1 h2
    simp [mainRun, h1, h2]
  · rintro (h | h) <;> simp [mainRun, h]
  · intro f1 f2
    by_cases h1 : e.configOk <;> by_cases h2 : e.connectOk <;>
      simp [mainRun, h1, h2]

/-- Witness for C2 amended: the failing-creation environment exits 0, a
missing configuration exits 1, and the exit status does not depend on the
failure oracle. -/
theorem c2_amended_witness :
    (mainRun c2_args c2_env).1 = 0
    ∧ (mainRun c2_args { c2_env with configOk := false }).1 = 1
    ∧ (mainRun c2_args { c2_env with fail := fun _ => true }).1
        = (mainRun c2_args { c2_env with fail := fun _ => false }).1 :=
  ⟨(c2_amended c2_args c2_env).1 rfl rfl,
   (c2_amended c2_args { c2_env with configOk := false }).2.1 (Or.inl rfl),
   (c2_amended c2_args c2_env).2.2 (fun _ => true) (fun _ => false)⟩

/-- C10: an unqualified column reference in the WHERE comparison scan or
the ORDER BY scan is attributed to every table extracted from the query,
and the query's weight is accumulated for that column once per extracted
table. -/
theorem c10_unqualified_attribution (q : QueryPattern) (r : ColRef)
    (hr : r ∈ q.whereRefs ∨ r ∈ q.orderRefs) (hal : r.tableAlias = none) :
    (∀ p ∈ extract_table_columns_from_query q, r.column ∈ p.2)
    ∧ (∀ p ∈ extract_table_columns_from_query q,
        ∃ w : ℚ, ((p.1, r.column), w) ∈ build_usage [q]) := by
  have hattr : ∀ p ∈ extract_table_columns_from_query q, r.column ∈ p.2 := by
    unfold extract_table_columns_from_query extract_columns_from_order_by
      extract_columns_from_conditions
    rcases hr with hw | ho
    · exact processRefs_preserves _ (processRefs_adds hw hal)
    · exact processRefs_adds ho hal
  refine ⟨hattr, ?_⟩
  intro p hp
  have hb : build_usage [q] = (extract_table_columns_from_query q).foldl
      (fun u2 p2 => p2.2.foldl
        (fun u3 c => addWeight u3 (p2.1, c) (q.calls * q.mean_time)) u2) [] := rfl
  rw [hb]
  exact tc_foldl_present _ hp (hattr p hp)

/-- Witness for C10: both tables of the two-table query receive the
unqualified column `k`, and the usage map holds a weight for it under the
second table as well. -/
theorem c10_unqualified_attribution_witness :
    ("k" ∈ ["k"])
    ∧ ∃ w : ℚ, (("staging.b", "k"), w) ∈ build_usage [c10_q] :=
  ⟨(c10_unqualified_attribution c10_q ⟨none, "k"⟩ (Or.inl (by decide)) rfl).1
      ("rds.a", ["k"]) (of_decide_eq_true (by with_unfolding_all rfl)),
   (c10_unqualified_attribution c10_q ⟨none, "k"⟩ (Or.inl (by decide)) rfl).2
      ("staging.b", ["k"]) (of_decide_eq_true (by with_unfolding_all rfl))⟩

theorem run_once_suggestions (p : List QueryPattern) (m : Metadata)
    (f : String → Bool) (l : List LiveIndex) (k : ℕ) :
    (run_once p m f l k).suggestions
      = generate_index_suggestions p m (get_existing_indexes l) := rfl

theorem run_once_results (p : List QueryPattern) (m : Metadata)
    (f : String → Bool) (l : List LiveIndex) (k : ℕ) :
    (run_once p m f l k).results
      = (create_indexes_go f
          ((generate_index_suggestions p m (get_existing_indexes l)).take k) l).1 := rfl

theorem run_once_live (p : List QueryPattern) (m : Metadata)
    (f : String → Bool) (l : List LiveIndex) (k : ℕ) :
    (run_once p m f l k).live
      = (create_indexes_go f
          ((generate_index_suggestions p m (get_existing_indexes l)).take k) l).2 := rfl

/-- C9: for every workload, metadata snapshot and existing-index snapshot,
the generator's final list is sorted non-increasing by priority score, has
at most 50 entries, never contains a single-column candidate on a column
listed among its table's primary keys, and the final sort is stable (it
permutes nothing within each equal-score class). -/
theorem c9_ranking_contract (patterns : List QueryPattern)
    (table_metadata : Metadata) (existing : ExistingIdx) :
    List.Sorted (fun a b => b.priority_score ≤ a.priority_score)
      (generate_index_suggestions patterns table_metadata existing)
    ∧ (generate_index_suggestions patterns table_metadata existing).length ≤ 50
    ∧ (∀ s ∈ generate_index_suggestions patterns table_metadata existing,
        s.type = SugType.single_column →
        ∀ tm, lookup table_metadata s.table = some tm →
        ∀ c ∈ s.columns, c ∉ tm.primary_keys)
    ∧ (∀ q : ℚ,
        (sortDescBy (fun s => s.priority_score)
          (generate_all (build_usage patterns) table_metadata existing)).filter
            (fun s => decide (s.priority_score = q))
        = (generate_all (build_usage patterns) table_metadata existing).filter
            (fun s => decide (s.priority_score = q))) := by
  refine ⟨?_, ?_, ?_, ?_⟩
  · unfold generate_index_suggestions
    exact List.Pairwise.sublist (List.take_sublist _ _) (sorted_sortDescBy _ _)
  · unfold generate_index_suggestions
    exact List.length_take_le _ _
  · intro s hs hst tm htm c hc
    have hall := mem_generate_index_suggestions hs
    unfold generate_all at hall
    rcases List.mem_append.mp hall with hl | hcomp
    · rcases List.mem_append.mp hl with hsing | hfk
      · rcases mem_generate_single_column.mp hsing with ⟨e, he, hstep⟩
        obtain ⟨⟨t0, c0⟩, w0⟩ := e
        rcases single_step_inv hstep with ⟨tm0, ci0, h1, h2, h3, h4, rfl⟩
        have htm0 : tm = tm0 := by
          have heq : lookup table_metadata t0 = some tm := htm
          rw [h1] at heq
          exact (Option.some.inj heq).symm
        have hc0 : c = c0 := by
          have hcols : (create_index_suggestion t0 c0 ci0 w0).columns = [c0] := rfl
          rw [hcols] at hc
          simpa using hc
        rw [htm0, hc0]
        exact h3
      · rcases mem_generate_fk.mp hfk with ⟨p, hp, fk, hfk2, hidx, rfl⟩
        simp [fk_suggestion] at hst
    · rcases mem_generate_composite hcomp with ⟨pat, hpat, rfl⟩
      simp [composite_suggestion] at hst
  · intro q
    exact filter_sortDescBy _ q _

/-- Witness for C9: in the concrete ranking scenario the emitted
single-column candidate's column `a` is not among the table's primary
keys. -/
theorem c9_ranking_contract_witness :
    "a" ∉ (["pk1"] : List String) := by
  have hlist : generate_index_suggestions c9_patterns c9_meta []
      = [create_index_suggestion "rds.t" "a" (mkColumnInfo ColRole.REGULAR none) 1111] := by
    with_unfolding_all rfl
  exact (c9_ranking_contract c9_patterns c9_meta []).2.2.1
    (create_index_suggestion "rds.t" "a" (mkColumnInfo ColRole.REGULAR none) 1111)
    (by rw [hlist]; exact List.mem_singleton.mpr rfl)
    rfl
    { columns := [("a", mkColumnInfo ColRole.REGULAR none),
                  ("pk1", mkColumnInfo ColRole.PRIMARY_KEY none)]
      primary_keys := ["pk1"]
      foreign_keys := [] }
    rfl
    "a" (by decide)

/-- C3 amended: across two runs against the same workload and metadata,
run 2 yields zero CREATED outcomes for index names already live after run
1 (a re-attempted candidate's outcome is ALREADY_EXISTS), and a candidate
created in run 1 whose column name survives the lowercase-substring check
against its own creation statement (in particular, any all-lowercase
column name) is excluded from run 2's ranked list as a single-column or
foreign-key candidate — it is not re-processed at all, so it gets no
outcome rather than an ALREADY_EXISTS outcome. -/
theorem c3_amended (patterns : List QueryPattern) (table_metadata : Metadata)
    (fail : String → Bool) (live : List LiveIndex) (maxIdx : ℕ) :
    (∀ s o, (s, o) ∈ (run_once patterns table_metadata fail
          (run_once patterns table_metadata fail live maxIdx).live maxIdx).results →
        s.index_name ∈ ((run_once patterns table_metadata fail live maxIdx).live).map
          (fun i => i.name) →
        o = Outcome.ALREADY_EXISTS)
    ∧ (∀ X c, (X, Outcome.CREATED) ∈ (run_once patterns table_metadata fail live maxIdx).results →
        X.columns = [c] →
        schemaQualified X.table = true →
        containsStr c (lowerStr X.sql) = true →
        ∀ s ∈ (run_once patterns table_metadata fail
            (run_once patterns table_metadata fail live maxIdx).live maxIdx).suggestions,
          s.type = SugType.single_column ∨ s.type = SugType.foreign_key →
          ¬ (s.table = X.table ∧ s.columns = [c])) := by
  constructor
  · intro s o hmem hname
    rw [run_once_results] at hmem
    exact create_go_already _ _ _ hmem hname
  · intro X c hX hcols hschema hsub s hs hty
    rintro ⟨htab, hcolseq⟩
    have hXlive : mkLiveIndex X ∈ (run_once patterns table_metadata fail live maxIdx).live := by
      rw [run_once_results] at hX
      rw [run_once_live]
      exact create_go_created _ _ _ hX
    have hidx : column_already_indexed X.table c
        (get_existing_indexes (run_once patterns table_metadata fail live maxIdx).live)
          = true :=
      column_already_indexed_of_live hXlive hschema hsub
    rw [run_once_suggestions] at hs
    have hall := mem_generate_index_suggestions hs
    unfold generate_all at hall
    rcases List.mem_append.mp hall with hl | hcomp
    · rcases List.mem_append.mp hl with hsing | hfk
      · rcases mem_generate_single_column.mp hsing with ⟨e, he, hstep⟩
        obtain ⟨⟨t0, c0⟩, w0⟩ := e
        rcases single_step_inv hstep with ⟨tm0, ci0, h1, h2, h3, h4, rfl⟩
        have ht0 : t0 = X.table := htab
        have hc0 : c0 = c := by
          have hcols0 : (create_index_suggestion t0 c0 ci0 w0).columns = [c0] := rfl
          rw [hcols0] at hcolseq
          simpa using hcolseq
        rw [ht0, hc0] at h4
        rw [h4] at hidx
        cases hidx
      · rcases mem_generate_fk.mp hfk with ⟨p, hp, fk, hfk2, hidxp, rfl⟩
        have ht0 : p.1 = X.table := htab
        have hc0 : fk = c := by
          have hcols0 : (fk_suggestion p.1 fk).columns = [fk] := rfl
          rw [hcols0] at hcolseq
          simpa using hcolseq
        rw [ht0, hc0] at hidxp
        rw [hidxp] at hidx
        cases hidx
    · rcases mem_generate_composite hcomp with ⟨pat, hpat, rfl⟩
      rcases hty with h | h <;> simp [composite_suggestion] at h

/-- Witness for C3 amended at the concrete two-run scenario: the
reappearing mixed-case foreign-key candidate gets outcome ALREADY_EXISTS
in run 2, and the lowercase single-column candidate created in run 1 does
not reappear in run 2's list. -/
theorem c3_amended_witness :
    Outcome.ALREADY_EXISTS = Outcome.ALREADY_EXISTS
    ∧ ¬ ((fk_suggestion "rds.t" "Yr").table
          = (create_index_suggestion "rds.t" "b" (mkColumnInfo ColRole.REGULAR none)
              3000).table
        ∧ (fk_suggestion "rds.t" "Yr").columns = ["b"]) :=
  by
  have hres1 : (run_once c3w_patterns c3w_meta (fun _ => false) [] 5).results
      = [(fk_suggestion "rds.t" "Yr", Outcome.CREATED),
         (create_index_suggestion "rds.t" "b" (mkColumnInfo ColRole.REGULAR none) 3000,
          Outcome.CREATED)] := by
    with_unfolding_all rfl
  have hlive1 : (run_once c3w_patterns c3w_meta (fun _ => false) [] 5).live
      = [mkLiveIndex (fk_suggestion "rds.t" "Yr"),
         mkLiveIndex (create_index_suggestion "rds.t" "b"
           (mkColumnInfo ColRole.REGULAR none) 3000)] := by
    with_unfolding_all rfl
  have hres2 : (run_once c3w_patterns c3w_meta (fun _ => false)
      ((run_once c3w_patterns c3w_meta (fun _ => false) [] 5).live) 5).results
      = [(fk_suggestion "rds.t" "Yr", Outcome.ALREADY_EXISTS)] := by
    with_unfolding_all rfl
  have hsug2 : (run_once c3w_patterns c3w_meta (fun _ => false)
      ((run_once c3w_patterns c3w_meta (fun _ => false) [] 5).live) 5).suggestions
      = [fk_suggestion "rds.t" "Yr"] := by
    with_unfolding_all rfl
  exact ⟨(c3_amended c3w_patterns c3w_meta (fun _ => false) [] 5).1
      (fk_suggestion "rds.t" "Yr") Outcome.ALREADY_EXISTS
      (by rw [hres2]; exact List.mem_singleton.mpr rfl)
      (by rw [hlive1]; decide),
    (c3_amended c3w_patterns c3w_meta (fun _ => false) [] 5).2
      (create_index_suggestion "rds.t" "b" (mkColumnInfo ColRole.REGULAR none) 3000)
      "b"
      (by rw [hres1]; exact List.mem_cons.mpr (Or.inr (List.mem_singleton.mpr rfl)))
      rfl
      (by decide)
      (by decide)
      (fk_suggestion "rds.t" "Yr")
      (by rw [hsug2]; exact List.mem_singleton.mpr rfl)
      (Or.inr rfl)⟩

/-- C3 counterexample: with the composite-pattern metadata and a creation
cap of one index per run, run 1 creates the first composite candidate; in
run 2 that candidate is excluded from the ranked list entirely — its name
appears in no run-2 outcome at all (so its outcome is not ALREADY_EXISTS,
refuting the claim's parenthetical) — while the second composite pattern,
which shares the newly indexed column `school_year_id` of the same table,
still appears in run 2's ranked list (refuting the exclusion of every
newly indexed table/column pair). -/
theorem c3_counterexample :
    ((composite_suggestion "rds.fact_k12_student_enrollments"
        ["school_year_id", "dim_k12_school_id"], Outcome.CREATED) ∈ c3_run1.results)
    ∧ (∀ p ∈ c3_run2.results,
        p.1.index_name
          ≠ "idx_fact_k12_student_enrollments_school_year_id_dim_k12_school_id")
    ∧ (∃ s ∈ c3_run2.suggestions,
        s.table = "rds.fact_k12_student_enrollments"
          ∧ "school_year_id" ∈ s.columns) := by
  have h1 : c3_run1.results
      = [(composite_suggestion "rds.fact_k12_student_enrollments"
            ["school_year_id", "dim_k12_school_id"], Outcome.CREATED)] := by
    with_unfolding_all rfl
  have h2 : c3_run2.results
      = [(composite_suggestion "rds.fact_k12_student_enrollments"
            ["school_year_id", "dim_grade_level_id"], Outcome.CREATED)] := by
    with_unfolding_all rfl
  have h3 : c3_run2.suggestions
      = [composite_suggestion "rds.fact_k12_student_enrollments"
            ["school_year_id", "dim_grade_level_id"]] := by
    with_unfolding_all rfl
  refine ⟨?_, ?_, ?_⟩
  · rw [h1]
    exact List.mem_singleton.mpr rfl
  · rw [h2]
    intro p hp
    rw [List.mem_singleton.mp hp]
    decide
  · rw [h3]
    exact ⟨composite_suggestion "rds.fact_k12_student_enrollments"
        ["school_year_id", "dim_grade_level_id"],
      List.mem_singleton.mpr rfl, by decide, by decide⟩

end CedsIndexAdvisor
